import Mathlib

/-!
Verification of the Game-store storefront against its specification.

The TypeScript sources are shallowly embedded: JS numbers that only ever
take integral-scale monetary/rating/timestamp values are modelled as `Int`
(order-isomorphic for every comparison the code performs), JS arrays as
`List`, `number | null` as `Option Nat`, and the stable
`Array.prototype.sort` (stability is guaranteed by the ECMAScript
specification) as `List.insertionSort`, which inserts an element before the
first element it compares `≤` to and is therefore stable in exactly the
same sense.
-/

namespace GameStore

/-- A game as consumed by the UI (fields used by the catalog, home and
profile views).  `price`, `rating` and `release_date` are JS numbers in the
source; they are modelled as `Int` (release_date stands for
`new Date(g.release_date).getTime()`). -/
structure Game where
  id : Nat
  title : String
  description : String
  price : Int
  rating : Int
  release_date : Int
  genre_id : Nat
  platform_id : Nat
deriving DecidableEq, Repr

/-- An order record (`Order` in types/api). -/
structure Order where
  id : Nat
  user_id : Nat
  game_id : Nat
  game_price : Int
deriving DecidableEq, Repr

/-- A review record. -/
structure Review where
  id : Nat
  user_id : Nat
  game_id : Nat
  rating : Nat
  comment : String
deriving DecidableEq, Repr

/-- A library entry: ownership marker linking a user to a game. -/
structure LibraryEntry where
  user_id : Nat
  game_id : Nat
deriving DecidableEq, Repr

/-! ### Range slider (FilterSidebar, variant with guards: src/unnamed/part_000)

The component state `range` of the dual-thumb price slider. -/

/-- The `range` state of the slider: `useState({ min: minPrice, max: maxPrice })`. -/
structure Range where
  min : Int
  max : Int
deriving DecidableEq, Repr

/-- Handler `handleMinChange` from src/unnamed/part_000:
`if (range.max === 1) return;`
`const newMin = Math.min(value, 9999, range.max);` and the pair
`(newMin, range.max)` is committed. -/
def handleMinChange (r : Range) (value : Int) : Range :=
  if r.max = 1 then r
  else { r with min := min value (min 9999 r.max) }

/-- Handler `handleMaxChange` from src/unnamed/part_000:
`if (range.min === 9999) return;`
`const newMax = Math.max(range.min, Math.min(value, 10000));`. -/
def handleMaxChange (r : Range) (value : Int) : Range :=
  if r.min = 9999 then r
  else { r with max := max r.min (min value 10000) }

/-- One proposed update delivered through either handler (slider thumb or
numeric text field both call the same handler with a number). -/
inductive SliderEvent where
  | setMin (v : Int)
  | setMax (v : Int)
deriving DecidableEq, Repr

/-- Deliver one event to the guarded-variant handlers. -/
def applyEvent (r : Range) : SliderEvent → Range
  | .setMin v => handleMinChange r v
  | .setMax v => handleMaxChange r v

/-- Deliver a finite sequence of proposed updates. -/
def applyEvents (r : Range) (es : List SliderEvent) : Range :=
  es.foldl applyEvent r

namespace Plain

/-! The plain variant of the sidebar
(src/frontend/src/components/FilterSidebar/FilterSidebar.tsx): no guards,
`newMin = Math.min(value, range.max)` and `newMax = Math.max(value, range.min)`. -/

/-- Handler `handleMinChange` of the plain variant. -/
def handleMinChange (r : Range) (value : Int) : Range :=
  { r with min := min value r.max }

/-- Handler `handleMaxChange` of the plain variant. -/
def handleMaxChange (r : Range) (value : Int) : Range :=
  { r with max := max value r.min }

/-- Deliver one event to the plain-variant handlers. -/
def applyEvent (r : Range) : SliderEvent → Range
  | .setMin v => handleMinChange r v
  | .setMax v => handleMaxChange r v

/-- Deliver a finite sequence of proposed updates (plain variant). -/
def applyEvents (r : Range) (es : List SliderEvent) : Range :=
  es.foldl applyEvent r

end Plain

/-- The commit the specification claims for a proposed new min `v`: clamp
`v` to [0, 9999] and then additionally clamp to at most the current max. -/
def specMinCommit (r : Range) (value : Int) : Int :=
  min (max (min value 9999) 0) r.max

/-- States reachable by the guarded-variant handlers satisfy this inductive
invariant (the strongest bound-shaped fact the handlers maintain). -/
def RangeInv (r : Range) : Prop :=
  r.min ≤ r.max ∧ r.min ≤ 9999 ∧ r.max ≤ 10000

lemma rangeInv_applyEvent {r : Range} (h : RangeInv r) (e : SliderEvent) :
    RangeInv (applyEvent r e) := by
  obtain ⟨h1, h2, h3⟩ := h
  cases e with
  | setMin v =>
      simp only [applyEvent, handleMinChange]
      split
      · exact ⟨h1, h2, h3⟩
      · refine ⟨?_, ?_, ?_⟩ <;> (dsimp only) <;> omega
  | setMax v =>
      simp only [applyEvent, handleMaxChange]
      split
      · exact ⟨h1, h2, h3⟩
      · refine ⟨?_, ?_, ?_⟩ <;> (dsimp only) <;> omega

lemma rangeInv_applyEvents {r : Range} (h : RangeInv r) (es : List SliderEvent) :
    RangeInv (applyEvents r es) := by
  induction es generalizing r with
  | nil => exact h
  | cons e t ih =>
      simpa [applyEvents, List.foldl_cons] using ih (rangeInv_applyEvent h e)

lemma plain_min_le_max {r : Range} (h : r.min ≤ r.max) (es : List SliderEvent) :
    (Plain.applyEvents r es).min ≤ (Plain.applyEvents r es).max := by
  induction es generalizing r with
  | nil => exact h
  | cons e t ih =>
      have step : (Plain.applyEvent r e).min ≤ (Plain.applyEvent r e).max := by
        cases e with
        | setMin v => simp only [Plain.applyEvent, Plain.handleMinChange]; omega
        | setMax v => simp only [Plain.applyEvent, Plain.handleMaxChange]; omega
      simpa [Plain.applyEvents, List.foldl_cons] using ih step

/-- C1 counterexample: starting from the valid state (min, max) = (0, 10000),
a single proposed min update of -5 (possible from the numeric text field)
commits min = -5, violating 0 ≤ min, so the claimed invariant
0 ≤ min < max ≤ 10000 is not preserved by the handlers. -/
theorem slider_invariant_counterexample :
    (0 ≤ (Range.mk 0 10000).min ∧ (Range.mk 0 10000).min < (Range.mk 0 10000).max
      ∧ (Range.mk 0 10000).max ≤ 10000)
    ∧ applyEvents (Range.mk 0 10000) [SliderEvent.setMin (-5)] = Range.mk (-5) 10000
    ∧ ¬ (0 ≤ (applyEvents (Range.mk 0 10000) [SliderEvent.setMin (-5)]).min) := by
  refine ⟨by decide, by decide, by decide⟩

/-- C1 amended: starting from any state with 0 ≤ min < max ≤ 10000, every
state committed by a finite sequence of updates through the guarded-variant
handlers satisfies min ≤ max ∧ min ≤ 9999 ∧ max ≤ 10000 (the separation can
collapse to zero and min can go below 0, since the handlers clamp min only
from above); the plain-variant handlers maintain only min ≤ max. -/
theorem slider_invariant_amended (r0 : Range) (h0 : 0 ≤ r0.min) (h1 : r0.min < r0.max)
    (h2 : r0.max ≤ 10000) (es : List SliderEvent) :
    ((applyEvents r0 es).min ≤ (applyEvents r0 es).max
      ∧ (applyEvents r0 es).min ≤ 9999
      ∧ (applyEvents r0 es).max ≤ 10000)
    ∧ (Plain.applyEvents r0 es).min ≤ (Plain.applyEvents r0 es).max := by
  refine ⟨rangeInv_applyEvents ⟨by omega, by omega, h2⟩ es, plain_min_le_max (by omega) es⟩

/-- C1 witness: the amended invariant instantiated at the start state
(0, 10000) and the update sequence [setMin 20000, setMax (-3)]. -/
theorem slider_invariant_amended_witness :
    ((applyEvents (Range.mk 0 10000) [SliderEvent.setMin 20000, SliderEvent.setMax (-3)]).min
        ≤ (applyEvents (Range.mk 0 10000) [SliderEvent.setMin 20000, SliderEvent.setMax (-3)]).max
      ∧ (applyEvents (Range.mk 0 10000) [SliderEvent.setMin 20000, SliderEvent.setMax (-3)]).min ≤ 9999
      ∧ (applyEvents (Range.mk 0 10000) [SliderEvent.setMin 20000, SliderEvent.setMax (-3)]).max ≤ 10000)
    ∧ (Plain.applyEvents (Range.mk 0 10000) [SliderEvent.setMin 20000, SliderEvent.setMax (-3)]).min
        ≤ (Plain.applyEvents (Range.mk 0 10000) [SliderEvent.setMin 20000, SliderEvent.setMax (-3)]).max :=
  slider_invariant_amended (Range.mk 0 10000) (by decide) (by decide) (by decide)
    [SliderEvent.setMin 20000, SliderEvent.setMax (-3)]

/-- C2 counterexample: in the state (min, max) = (0, 10000) the proposed min
value -5 commits min = -5, not 0: the handler computes
`Math.min(value, 9999, range.max)` and never clamps from below, so the
claimed clamp of `v` to [0, 9999] does not describe the code. -/
theorem handleMinChange_counterexample :
    (handleMinChange (Range.mk 0 10000) (-5)).min = -5
    ∧ specMinCommit (Range.mk 0 10000) (-5) = 0
    ∧ (handleMinChange (Range.mk 0 10000) (-5)).min ≠ specMinCommit (Range.mk 0 10000) (-5) := by
  refine ⟨by decide, by decide, by decide⟩

/-- C2 amended: unless max = 1 (defensive no-op), the min handler commits
exactly `Math.min(v, 9999, current max)` and leaves max unchanged; this
agrees with the claimed clamp to [0, 9999] followed by the clamp to ≤ max
whenever the proposed value is nonnegative, and for negative proposed `v`
not exceeding the current max the committed min is `v` itself (no lower
clamp).  When max = 1 the handler rejects every proposal unchanged. -/
theorem handleMinChange_amended (r : Range) (value : Int) (hguard : r.max ≠ 1) :
    (handleMinChange r value).min = min value (min 9999 r.max)
    ∧ (handleMinChange r value).max = r.max
    ∧ (0 ≤ value → (handleMinChange r value).min = specMinCommit r value)
    ∧ (value < 0 → value ≤ r.max → (handleMinChange r value).min = value)
    ∧ (∀ r' : Range, r'.max = 1 → ∀ v, handleMinChange r' v = r') := by
  refine ⟨?_, ?_, ?_, ?_, ?_⟩
  · simp only [handleMinChange, if_neg hguard]
  · simp only [handleMinChange, if_neg hguard]
  · intro hv
    simp only [handleMinChange, if_neg hguard, specMinCommit]
    omega
  · intro hv hv'
    simp only [handleMinChange, if_neg hguard]
    omega
  · intro r' h' v
    simp only [handleMinChange, if_pos h']

/-- C2 witness: the amended description instantiated at state (200, 700)
with proposed value 350. -/
theorem handleMinChange_amended_witness :
    (handleMinChange (Range.mk 200 700) 350).min = min 350 (min 9999 (Range.mk 200 700).max)
    ∧ (handleMinChange (Range.mk 200 700) 350).max = (Range.mk 200 700).max
    ∧ (0 ≤ (350 : Int) → (handleMinChange (Range.mk 200 700) 350).min = specMinCommit (Range.mk 200 700) 350)
    ∧ ((350 : Int) < 0 → (350 : Int) ≤ (Range.mk 200 700).max →
        (handleMinChange (Range.mk 200 700) 350).min = 350)
    ∧ (∀ r' : Range, r'.max = 1 → ∀ v, handleMinChange r' v = r') :=
  handleMinChange_amended (Range.mk 200 700) 350 (by decide)

/-! ### Stable-sort auxiliary lemmas

`List.insertionSort r` places an inserted element before the first element
`b` with `r a b`, so for a total preorder `r` it computes the unique stable
sort — the same result the ECMAScript stable `Array.prototype.sort`
produces for a consistent comparator where `r a b` means
"the comparator puts `a` at or before `b`". -/

section SortLemmas

variable {α : Type} (r : α → α → Prop) [DecidableRel r]

lemma orderedInsert_of_forall_le (a : α) (m : List α) (hm : ∀ x ∈ m, r a x) :
    List.orderedInsert r a m = a :: m := by
  cases m with
  | nil => rfl
  | cons y ys => exact List.orderedInsert_of_le r ys (hm y (List.mem_cons_self y ys))

lemma filter_orderedInsert_pos (p : α → Bool)
    (hcl : ∀ a b, p a = true → p b = true → r a b)
    (a : α) (ha : p a = true) (l : List α) :
    (List.orderedInsert r a l).filter p = a :: l.filter p := by
  induction l with
  | nil => simp [ha]
  | cons b t ih =>
    by_cases h : r a b
    · rw [List.orderedInsert_of_le r t h]
      simp [List.filter_cons, ha]
    · have hb : p b = false := by
        cases hpb : p b
        · rfl
        · exact absurd (hcl a b ha hpb) h
      simp only [List.orderedInsert, if_neg h]
      simp [List.filter_cons, hb, ih]

lemma filter_orderedInsert_neg (p : α → Bool) (a : α) (ha : p a = false) (l : List α) :
    (List.orderedInsert r a l).filter p = l.filter p := by
  induction l with
  | nil => simp [ha]
  | cons b t ih =>
    by_cases h : r a b
    · rw [List.orderedInsert_of_le r t h]
      simp [List.filter_cons, ha]
    · simp only [List.orderedInsert, if_neg h]
      simp [List.filter_cons, ih]

lemma filter_insertionSort_stable (p : α → Bool)
    (hcl : ∀ a b, p a = true → p b = true → r a b) (l : List α) :
    (List.insertionSort r l).filter p = l.filter p := by
  induction l with
  | nil => rfl
  | cons a t ih =>
    simp only [List.insertionSort]
    cases hpa : p a with
    | true => rw [filter_orderedInsert_pos r p hcl a hpa, ih]; simp [List.filter_cons, hpa]
    | false => rw [filter_orderedInsert_neg r p a hpa, ih]; simp [List.filter_cons, hpa]

lemma sorted_insertionSort_total (htot : ∀ a b, r a b ∨ r b a)
    (htrans : ∀ a b c, r a b → r b c → r a c) (l : List α) :
    (List.insertionSort r l).Sorted r := by
  letI : IsTotal α r := ⟨htot⟩
  letI : IsTrans α r := ⟨fun a b c => htrans a b c⟩
  exact List.sorted_insertionSort r l

lemma orderedInsert_filter_comm (p : α → Bool)
    (htrans : ∀ a b c, r a b → r b c → r a c)
    (a : α) (ha : p a = true) (l : List α) (hl : l.Sorted r) :
    (List.orderedInsert r a l).filter p = List.orderedInsert r a (l.filter p) := by
  induction l with
  | nil => simp [ha]
  | cons b t ih =>
    have hbt : ∀ x ∈ t, r b x := List.rel_of_sorted_cons hl
    have ht : t.Sorted r := hl.of_cons
    by_cases h : r a b
    · rw [List.orderedInsert_of_le r t h]
      cases hpb : p b with
      | true =>
        rw [List.filter_cons_of_pos ha, List.filter_cons_of_pos hpb,
          orderedInsert_of_forall_le r a (b :: t.filter p)]
        intro x hx
        rcases List.mem_cons.mp hx with hx | hx
        · exact hx ▸ h
        · exact htrans a b x h (hbt x (List.mem_of_mem_filter hx))
      | false =>
        rw [List.filter_cons_of_pos ha, List.filter_cons_of_neg (by simp [hpb]),
          orderedInsert_of_forall_le r a (t.filter p)]
        intro x hx
        exact htrans a b x h (hbt x (List.mem_of_mem_filter hx))
    · simp only [List.orderedInsert, if_neg h]
      cases hpb : p b with
      | true =>
        rw [List.filter_cons_of_pos hpb, ih ht, List.filter_cons_of_pos hpb]
        simp only [List.orderedInsert, if_neg h]
      | false =>
        rw [List.filter_cons_of_neg (by simp [hpb]), ih ht,
          List.filter_cons_of_neg (by simp [hpb])]

lemma insertionSort_filter_comm (p : α → Bool)
    (htot : ∀ a b, r a b ∨ r b a) (htrans : ∀ a b c, r a b → r b c → r a c)
    (l : List α) :
    (List.insertionSort r l).filter p = List.insertionSort r (l.filter p) := by
  induction l with
  | nil => rfl
  | cons a t ih =>
    simp only [List.insertionSort]
    cases hpa : p a with
    | true =>
      rw [orderedInsert_filter_comm r p htrans a hpa _
          (sorted_insertionSort_total r htot htrans t), ih,
        List.filter_cons_of_pos hpa]
      simp only [List.insertionSort]
    | false =>
      rw [filter_orderedInsert_neg r p a hpa _, ih,
        List.filter_cons_of_neg (by simp [hpa])]

lemma filter_take_sorted (p : α → Bool) (s : List α) (hs : s.Sorted r)
    (hdc : ∀ a b, r a b → p b = true → p a = true) :
    ∀ n : Nat, (s.take n).filter p = (s.filter p).take n := by
  induction s with
  | nil => intro n; simp
  | cons x t ih =>
    intro n
    cases n with
    | zero => simp
    | succ m =>
      rw [List.take_succ_cons]
      cases hpx : p x with
      | true =>
        rw [List.filter_cons_of_pos hpx, List.filter_cons_of_pos hpx,
          List.take_succ_cons, ih hs.of_cons m]
      | false =>
        have hnone : ∀ y ∈ t, ¬ p y = true := by
          intro y hy hpy
          have := hdc x y (List.rel_of_sorted_cons hs y hy) hpy
          simp [hpx] at this
        rw [List.filter_cons_of_neg (by simp [hpx]), List.filter_cons_of_neg (by simp [hpx])]
        have h1 : (t.take m).filter p = [] :=
          List.filter_eq_nil_iff.mpr fun y hy => hnone y (List.take_subset m t hy)
        have h2 : t.filter p = [] := List.filter_eq_nil_iff.mpr hnone
        rw [h1, h2]
        simp

end SortLemmas

/-! ### Filter / sort / search pipeline (Catalog page, src/unnamed/part_003) -/

/-- The catalog controller's filter state: `selectedGenre`,
`selectedPlatform`, `minPrice`, `maxPrice`, `sortBy` (`number | null` is
`Option Nat`; `sortBy` is a free string). -/
structure FilterState where
  selectedGenre : Option Nat
  selectedPlatform : Option Nat
  minPrice : Int
  maxPrice : Int
  sortBy : String
deriving DecidableEq, Repr

/-- Step `if (selectedGenre !== null) filtered = filtered.filter((game) => game.genre_id === selectedGenre)`. -/
def genreStep (fs : FilterState) (l : List Game) : List Game :=
  match fs.selectedGenre with
  | some g => l.filter (fun game => game.genre_id == g)
  | none => l

/-- Step `if (selectedPlatform !== null) filtered = filtered.filter((game) => game.platform_id === selectedPlatform)`. -/
def platformStep (fs : FilterState) (l : List Game) : List Game :=
  match fs.selectedPlatform with
  | some p => l.filter (fun game => game.platform_id == p)
  | none => l

/-- Step `filtered = filtered.filter((game) => game.price >= minPrice && game.price <= maxPrice)`. -/
def priceStep (fs : FilterState) (l : List Game) : List Game :=
  l.filter (fun game => decide (fs.minPrice ≤ game.price) && decide (game.price ≤ fs.maxPrice))

/-- The three filter passes of `getFilteredGames`, in source order, before
the sort switch. -/
def filteredGames (allGames : List Game) (fs : FilterState) : List Game :=
  priceStep fs (platformStep fs (genreStep fs allGames))

/-- The `switch (sortBy)` of `getFilteredGames`.  Each case calls the
stable in-place `filtered.sort(cmp)`; a comparator `cmp` puts `a` at or
before `b` exactly when `cmp(a, b) ≤ 0`, which for e.g. `newest`
(`cmp(a, b) = date(b) - date(a)`) is `date(b) ≤ date(a)`.  A `sortBy`
outside the five cases matches no case and the list is returned as is. -/
def sortGames (sortBy : String) (l : List Game) : List Game :=
  match sortBy with
  | "newest" => l.insertionSort (fun a b => b.release_date ≤ a.release_date)
  | "oldest" => l.insertionSort (fun a b => a.release_date ≤ b.release_date)
  | "price-asc" => l.insertionSort (fun a b => a.price ≤ b.price)
  | "price-desc" => l.insertionSort (fun a b => b.price ≤ a.price)
  | "rating" => l.insertionSort (fun a b => b.rating ≤ a.rating)
  | _ => l

/-- Function `getFilteredGames` of the Catalog page: copy, three filters, sort
switch, return the (fresh) result. -/
def getFilteredGames (allGames : List Game) (fs : FilterState) : List Game :=
  sortGames fs.sortBy (filteredGames allGames fs)

lemma mem_genreStep {fs : FilterState} {l : List Game} {a : Game} :
    a ∈ genreStep fs l ↔ a ∈ l ∧ (∀ g, fs.selectedGenre = some g → a.genre_id = g) := by
  unfold genreStep
  rcases h : fs.selectedGenre with _ | g <;> simp [List.mem_filter, h]

lemma mem_platformStep {fs : FilterState} {l : List Game} {a : Game} :
    a ∈ platformStep fs l ↔ a ∈ l ∧ (∀ p, fs.selectedPlatform = some p → a.platform_id = p) := by
  unfold platformStep
  rcases h : fs.selectedPlatform with _ | p <;> simp [List.mem_filter, h]

lemma mem_priceStep {fs : FilterState} {l : List Game} {a : Game} :
    a ∈ priceStep fs l ↔ a ∈ l ∧ fs.minPrice ≤ a.price ∧ a.price ≤ fs.maxPrice := by
  unfold priceStep
  simp [List.mem_filter, and_assoc]

lemma sortGames_perm (k : String) (l : List Game) : List.Perm (sortGames k l) l := by
  unfold sortGames
  split
  · exact List.perm_insertionSort _ _
  · exact List.perm_insertionSort _ _
  · exact List.perm_insertionSort _ _
  · exact List.perm_insertionSort _ _
  · exact List.perm_insertionSort _ _
  · exact List.Perm.refl _

lemma mem_getFilteredGames {games : List Game} {fs : FilterState} {a : Game} :
    a ∈ getFilteredGames games fs ↔
      a ∈ games
      ∧ (∀ g, fs.selectedGenre = some g → a.genre_id = g)
      ∧ (∀ p, fs.selectedPlatform = some p → a.platform_id = p)
      ∧ fs.minPrice ≤ a.price ∧ a.price ≤ fs.maxPrice := by
  unfold getFilteredGames filteredGames
  rw [(sortGames_perm fs.sortBy _).mem_iff, mem_priceStep, mem_platformStep, mem_genreStep]
  tauto

lemma sortGames_eq_of_unknown {k : String}
    (h : k ∉ (["newest", "oldest", "price-asc", "price-desc", "rating"] : List String))
    (l : List Game) : sortGames k l = l := by
  unfold sortGames
  split <;> simp_all

/-- C3: for every game collection and FilterState, membership in the
pipeline output is exactly: membership in the input and all active
predicates (genre, platform, inclusive price range) at once; and
deactivating the genre filter, deactivating the platform filter, or
widening the price range (each with everything else fixed) yields an
output whose member set contains the previous one. -/
theorem getFilteredGames_subset_monotone (games : List Game) (fs : FilterState) :
    (∀ a : Game, a ∈ getFilteredGames games fs ↔
        a ∈ games
        ∧ (∀ g, fs.selectedGenre = some g → a.genre_id = g)
        ∧ (∀ p, fs.selectedPlatform = some p → a.platform_id = p)
        ∧ fs.minPrice ≤ a.price ∧ a.price ≤ fs.maxPrice)
    ∧ (∀ a ∈ getFilteredGames games fs,
        a ∈ getFilteredGames games { fs with selectedGenre := none })
    ∧ (∀ a ∈ getFilteredGames games fs,
        a ∈ getFilteredGames games { fs with selectedPlatform := none })
    ∧ (∀ lo hi : Int, lo ≤ fs.minPrice → fs.maxPrice ≤ hi →
        ∀ a ∈ getFilteredGames games fs,
          a ∈ getFilteredGames games { fs with minPrice := lo, maxPrice := hi }) := by
  refine ⟨fun a => mem_getFilteredGames, ?_, ?_, ?_⟩
  · intro a ha
    rw [mem_getFilteredGames] at ha ⊢
    obtain ⟨h1, _, h3, h4, h5⟩ := ha
    exact ⟨h1, fun g h => by simp at h, h3, h4, h5⟩
  · intro a ha
    rw [mem_getFilteredGames] at ha ⊢
    obtain ⟨h1, h2, _, h4, h5⟩ := ha
    exact ⟨h1, h2, fun p h => by simp at h, h4, h5⟩
  · intro lo hi hlo hhi a ha
    rw [mem_getFilteredGames] at ha ⊢
    obtain ⟨h1, h2, h3, h4, h5⟩ := ha
    exact ⟨h1, h2, h3, le_trans hlo h4, le_trans h5 hhi⟩

/-- C3 witness: the characterization instantiated at a one-game catalog and
a filter state with no genre/platform filter and the full price range. -/
theorem getFilteredGames_subset_monotone_witness :
    Game.mk 1 "A" "" 50 3 100 2 3 ∈
      getFilteredGames [Game.mk 1 "A" "" 50 3 100 2 3]
        (FilterState.mk none none 0 10000 "rating") :=
  ((getFilteredGames_subset_monotone [Game.mk 1 "A" "" 50 3 100 2 3]
      (FilterState.mk none none 0 10000 "rating")).1 _).mpr
    ⟨List.mem_singleton_self _, fun _ h => by simp at h, fun _ h => by simp at h,
      by decide, by decide⟩

/-- C4: the pipeline output is always a permutation of the filtered
pre-sort list; for each of the five recognized sort keys the output is
ordered by the corresponding key and direction, games with equal sort key
keep their relative order from the pre-sort sequence (stability, stated as
preservation of every equal-key subsequence), and any sortBy outside the
five values leaves the list exactly unchanged. -/
theorem getFilteredGames_sort_correct (games : List Game) (fs : FilterState) :
    List.Perm (getFilteredGames games fs) (filteredGames games fs)
    ∧ (fs.sortBy = "newest" →
        (getFilteredGames games fs).Pairwise (fun a b => b.release_date ≤ a.release_date)
        ∧ ∀ t : Int, (getFilteredGames games fs).filter (fun g => g.release_date == t)
            = (filteredGames games fs).filter (fun g => g.release_date == t))
    ∧ (fs.sortBy = "oldest" →
        (getFilteredGames games fs).Pairwise (fun a b => a.release_date ≤ b.release_date)
        ∧ ∀ t : Int, (getFilteredGames games fs).filter (fun g => g.release_date == t)
            = (filteredGames games fs).filter (fun g => g.release_date == t))
    ∧ (fs.sortBy = "price-asc" →
        (getFilteredGames games fs).Pairwise (fun a b => a.price ≤ b.price)
        ∧ ∀ t : Int, (getFilteredGames games fs).filter (fun g => g.price == t)
            = (filteredGames games fs).filter (fun g => g.price == t))
    ∧ (fs.sortBy = "price-desc" →
        (getFilteredGames games fs).Pairwise (fun a b => b.price ≤ a.price)
        ∧ ∀ t : Int, (getFilteredGames games fs).filter (fun g => g.price == t)
            = (filteredGames games fs).filter (fun g => g.price == t))
    ∧ (fs.sortBy = "rating" →
        (getFilteredGames games fs).Pairwise (fun a b => b.rating ≤ a.rating)
        ∧ ∀ t : Int, (getFilteredGames games fs).filter (fun g => g.rating == t)
            = (filteredGames games fs).filter (fun g => g.rating == t))
    ∧ (fs.sortBy ∉ (["newest", "oldest", "price-asc", "price-desc", "rating"] : List String) →
        getFilteredGames games fs = filteredGames games fs) := by
  refine ⟨sortGames_perm fs.sortBy (filteredGames games fs), ?_, ?_, ?_, ?_, ?_, ?_⟩
  · intro h
    have e : getFilteredGames games fs
        = (filteredGames games fs).insertionSort (fun a b => b.release_date ≤ a.release_date) := by
      unfold getFilteredGames; rw [h]; rfl
    rw [e]
    refine ⟨sorted_insertionSort_total (fun a b : Game => b.release_date ≤ a.release_date)
      (fun a b => le_total _ _) (fun a b c hab hbc => le_trans hbc hab) _, fun t => ?_⟩
    exact filter_insertionSort_stable (fun a b : Game => b.release_date ≤ a.release_date)
      (fun g => g.release_date == t)
      (fun a b ha hb => by simp only [beq_iff_eq] at ha hb; omega) _
  · intro h
    have e : getFilteredGames games fs
        = (filteredGames games fs).insertionSort (fun a b => a.release_date ≤ b.release_date) := by
      unfold getFilteredGames; rw [h]; rfl
    rw [e]
    refine ⟨sorted_insertionSort_total (fun a b : Game => a.release_date ≤ b.release_date)
      (fun a b => le_total _ _) (fun a b c hab hbc => le_trans hab hbc) _, fun t => ?_⟩
    exact filter_insertionSort_stable (fun a b : Game => a.release_date ≤ b.release_date)
      (fun g => g.release_date == t)
      (fun a b ha hb => by simp only [beq_iff_eq] at ha hb; omega) _
  · intro h
    have e : getFilteredGames games fs
        = (filteredGames games fs).insertionSort (fun a b => a.price ≤ b.price) := by
      unfold getFilteredGames; rw [h]; rfl
    rw [e]
    refine ⟨sorted_insertionSort_total (fun a b : Game => a.price ≤ b.price)
      (fun a b => le_total _ _) (fun a b c hab hbc => le_trans hab hbc) _, fun t => ?_⟩
    exact filter_insertionSort_stable (fun a b : Game => a.price ≤ b.price)
      (fun g => g.price == t)
      (fun a b ha hb => by simp only [beq_iff_eq] at ha hb; omega) _
  · intro h
    have e : getFilteredGames games fs
        = (filteredGames games fs).insertionSort (fun a b => b.price ≤ a.price) := by
      unfold getFilteredGames; rw [h]; rfl
    rw [e]
    refine ⟨sorted_insertionSort_total (fun a b : Game => b.price ≤ a.price)
      (fun a b => le_total _ _) (fun a b c hab hbc => le_trans hbc hab) _, fun t => ?_⟩
    exact filter_insertionSort_stable (fun a b : Game => b.price ≤ a.price)
      (fun g => g.price == t)
      (fun a b ha hb => by simp only [beq_iff_eq] at ha hb; omega) _
  · intro h
    have e : getFilteredGames games fs
        = (filteredGames games fs).insertionSort (fun a b => b.rating ≤ a.rating) := by
      unfold getFilteredGames; rw [h]; rfl
    rw [e]
    refine ⟨sorted_insertionSort_total (fun a b : Game => b.rating ≤ a.rating)
      (fun a b => le_total _ _) (fun a b c hab hbc => le_trans hbc hab) _, fun t => ?_⟩
    exact filter_insertionSort_stable (fun a b : Game => b.rating ≤ a.rating)
      (fun g => g.rating == t)
      (fun a b ha hb => by simp only [beq_iff_eq] at ha hb; omega) _
  · intro h
    exact sortGames_eq_of_unknown h (filteredGames games fs)

/-- C4 witness: the rating-descending case instantiated at a two-game
catalog sorted by the "rating" key. -/
theorem getFilteredGames_sort_correct_witness :
    (getFilteredGames [Game.mk 1 "A" "" 50 3 100 2 3, Game.mk 2 "B" "" 60 5 200 2 3]
        (FilterState.mk none none 0 10000 "rating")).Pairwise
      (fun a b => b.rating ≤ a.rating) :=
  ((getFilteredGames_sort_correct
      [Game.mk 1 "A" "" 50 3 100 2 3, Game.mk 2 "B" "" 60 5 200 2 3]
      (FilterState.mk none none 0 10000 "rating")).2.2.2.2.2.1 rfl).1

/-! ### Home page derivations (src/unnamed/part_003 and src/unnamed/part_002) -/

/-- Derivation `topRatedGames` of the Home pages:
`[...games].sort((a, b) => b.rating - a.rating).slice(0, n).filter((game) => game.rating > 0)`;
n = 6 in the positional variant (part_003) and n = 3 in the
order-aggregation variant (part_002). -/
def topRatedGames (n : Nat) (games : List Game) : List Game :=
  ((games.insertionSort (fun a b => b.rating ≤ a.rating)).take n).filter
    (fun game => decide (0 < game.rating))

/-- The derivation the specification describes for the top-rated list:
exclude every rating-0 game, order the rest by rating descending, take the
top n. -/
def specTopRated (n : Nat) (games : List Game) : List Game :=
  ((games.filter (fun game => game.rating != 0)).insertionSort
    (fun a b => b.rating ≤ a.rating)).take n

/-- C8: for rating data in the documented domain (no negative ratings), the
home page's top-rated list equals the spec derivation
exclude-zero-then-sort-descending-then-take-n; no zero-rated game ever
appears in it; and whenever at least n games have positive rating the list
has exactly n entries. -/
theorem topRatedGames_correct (n : Nat) (games : List Game)
    (hnn : ∀ g ∈ games, 0 ≤ g.rating) :
    topRatedGames n games = specTopRated n games
    ∧ (∀ g ∈ topRatedGames n games, g.rating ≠ 0)
    ∧ (n ≤ (games.filter (fun game => decide (0 < game.rating))).length →
        (topRatedGames n games).length = n) := by
  have htot : ∀ a b : Game, b.rating ≤ a.rating ∨ a.rating ≤ b.rating :=
    fun a b => le_total _ _
  have htrans : ∀ a b c : Game,
      b.rating ≤ a.rating → c.rating ≤ b.rating → c.rating ≤ a.rating :=
    fun a b c hab hbc => le_trans hbc hab
  have hdc : ∀ a b : Game, b.rating ≤ a.rating →
      decide (0 < b.rating) = true → decide (0 < a.rating) = true := by
    intro a b hab hb
    simp only [decide_eq_true_eq] at hb ⊢
    omega
  have step1 : topRatedGames n games
      = (((games.insertionSort (fun a b => b.rating ≤ a.rating)).filter
          (fun game => decide (0 < game.rating))).take n) :=
    filter_take_sorted _ _ _
      (sorted_insertionSort_total _ htot htrans games) hdc n
  have step2 : (games.insertionSort (fun a b => b.rating ≤ a.rating)).filter
        (fun game => decide (0 < game.rating))
      = (games.filter (fun game => decide (0 < game.rating))).insertionSort
        (fun a b => b.rating ≤ a.rating) :=
    insertionSort_filter_comm _ _ htot htrans games
  have step3 : games.filter (fun game => decide (0 < game.rating))
      = games.filter (fun game => game.rating != 0) := by
    apply List.filter_congr
    intro g hg
    rcases eq_or_lt_of_le (hnn g hg) with h | h
    · rw [← h]; rfl
    · simp [h, h.ne']
  refine ⟨?_, ?_, ?_⟩
  · rw [step1, step2, step3]
    rfl
  · intro g hg
    have := (List.mem_filter.mp hg).2
    simp only [decide_eq_true_eq] at this
    omega
  · intro hn
    rw [step1, step2, List.length_take, List.length_insertionSort]
    omega

/-- C8 witness: the top-rated characterization at n = 1 over a catalog with
one unrated and one rated game. -/
theorem topRatedGames_correct_witness :
    topRatedGames 1 [Game.mk 1 "A" "" 50 0 100 2 3, Game.mk 2 "B" "" 60 2 200 2 3]
        = specTopRated 1 [Game.mk 1 "A" "" 50 0 100 2 3, Game.mk 2 "B" "" 60 2 200 2 3]
    ∧ (∀ g ∈ topRatedGames 1 [Game.mk 1 "A" "" 50 0 100 2 3, Game.mk 2 "B" "" 60 2 200 2 3],
        g.rating ≠ 0)
    ∧ (1 ≤ ([Game.mk 1 "A" "" 50 0 100 2 3, Game.mk 2 "B" "" 60 2 200 2 3].filter
          (fun game => decide (0 < game.rating))).length →
        (topRatedGames 1
          [Game.mk 1 "A" "" 50 0 100 2 3, Game.mk 2 "B" "" 60 2 200 2 3]).length = 1) :=
  topRatedGames_correct 1
    [Game.mk 1 "A" "" 50 0 100 2 3, Game.mk 2 "B" "" 60 2 200 2 3] (by decide)

/-! ### Featured games by purchase count (src/unnamed/part_002) -/

/-- The tally `purchaseCount` of `getMostPurchasedGames` together with
`Object.entries(purchaseCount)`: the record is keyed by `order.game_id`
(a non-negative integer), and ECMAScript enumerates integer-index keys of
an object in ascending numeric order, so the entry list is the distinct
purchased ids in ascending order, each paired with its tally. -/
def purchaseEntries (orders : List Order) : List (Nat × Nat) :=
  (((orders.map (fun o => o.game_id)).dedup).insertionSort (fun a b => a ≤ b)).map
    (fun gid => (gid, orders.countP (fun o => o.game_id == gid)))

/-- Step `.sort(([, a], [, b]) => b - a)` over the entries: stable sort by
purchase count descending. -/
def sortedEntries (orders : List Order) : List (Nat × Nat) :=
  (purchaseEntries orders).insertionSort (fun x y => y.2 ≤ x.2)

/-- Step `.slice(0, 3).map(([id]) => Number(id))`. -/
def sortedGameIds (orders : List Order) : List Nat :=
  ((sortedEntries orders).take 3).map (fun e => e.1)

/-- Function `getMostPurchasedGames`: resolve the top ids against the catalog
(`games.find`), drop ids that do not resolve, and when fewer than 3 games
resolve, pad with the first remaining catalog games. -/
def getMostPurchasedGames (orders : List Order) (games : List Game) : List Game :=
  let featured := (sortedGameIds orders).filterMap
    (fun gid => games.find? (fun g => g.id == gid))
  if featured.length < 3 then
    featured ++ (games.filter
      (fun g => !(featured.any (fun fg => fg.id == g.id)))).take (3 - featured.length)
  else featured

lemma pairwise_count_lex (l : List (Nat × Nat))
    (hs : l.Sorted (fun x y => y.2 ≤ x.2))
    (hf : ∀ c : Nat, (l.filter (fun x => x.2 == c)).Pairwise (fun x y => x.1 < y.1)) :
    l.Pairwise (fun x y => y.2 ≤ x.2 ∧ (x.2 = y.2 → x.1 < y.1)) := by
  induction l with
  | nil => exact List.Pairwise.nil
  | cons x t ih =>
    refine List.pairwise_cons.mpr ⟨?_, ih hs.of_cons (fun c => ?_)⟩
    · intro y hy
      refine ⟨List.rel_of_sorted_cons hs y hy, fun hc => ?_⟩
      have h1 := hf x.2
      rw [List.filter_cons_of_pos (by simp)] at h1
      exact (List.pairwise_cons.mp h1).1 y (List.mem_filter.mpr ⟨hy, by simp [hc]⟩)
    · have h1 := hf c
      rw [List.filter_cons] at h1
      split at h1
      · exact (List.pairwise_cons.mp h1).2
      · exact h1

/-- C7 counterexample: with one order for game 5 followed by one order for
game 3 (equal purchase counts) over the catalog [game 5, game 3, game 7],
the derivation returns game 3 first, not game 5: count ties are broken by
ascending game id (the object key enumeration order feeding the stable
sort), not by the orders' input order as claimed. -/
theorem getMostPurchasedGames_counterexample :
    getMostPurchasedGames
        [Order.mk 1 1 5 100, Order.mk 2 1 3 100]
        [Game.mk 5 "F" "" 0 0 0 1 1, Game.mk 3 "T" "" 0 0 0 1 1, Game.mk 7 "S" "" 0 0 0 1 1]
      = [Game.mk 3 "T" "" 0 0 0 1 1, Game.mk 5 "F" "" 0 0 0 1 1, Game.mk 7 "S" "" 0 0 0 1 1]
    ∧ (getMostPurchasedGames
        [Order.mk 1 1 5 100, Order.mk 2 1 3 100]
        [Game.mk 5 "F" "" 0 0 0 1 1, Game.mk 3 "T" "" 0 0 0 1 1, Game.mk 7 "S" "" 0 0 0 1 1]).head?
      ≠ some (Game.mk 5 "F" "" 0 0 0 1 1) := by
  refine ⟨by decide, by decide⟩

/-- C7 amended: the derivation orders the purchase-count entries by count
descending, breaking count ties by ascending game id (JS object
integer-key enumeration order), not by the orders' input order; the rest of
the claim stands, as on its own example: orders for games [1, 1, 2] over a
3-game catalog yield [game 1, game 2, remaining game 3], with game 1
(2 purchases) strictly before game 2 (1 purchase). -/
theorem getMostPurchasedGames_amended (orders : List Order) :
    (sortedEntries orders).Pairwise
      (fun x y => y.2 ≤ x.2 ∧ (x.2 = y.2 → x.1 < y.1))
    ∧ getMostPurchasedGames
        [Order.mk 1 1 1 100, Order.mk 2 1 1 100, Order.mk 3 1 2 100]
        [Game.mk 1 "A" "" 0 0 0 1 1, Game.mk 2 "B" "" 0 0 0 1 1, Game.mk 3 "C" "" 0 0 0 1 1]
      = [Game.mk 1 "A" "" 0 0 0 1 1, Game.mk 2 "B" "" 0 0 0 1 1, Game.mk 3 "C" "" 0 0 0 1 1] := by
  have hasc : (purchaseEntries orders).Pairwise (fun x y => x.1 < y.1) := by
    unfold purchaseEntries
    rw [List.pairwise_map]
    have h1 : (((orders.map (fun o => o.game_id)).dedup).insertionSort
        (fun a b => a ≤ b)).Sorted (fun a b => a ≤ b) :=
      sorted_insertionSort_total (fun a b : Nat => a ≤ b) (fun a b => le_total a b)
        (fun a b c hab hbc => le_trans hab hbc) _
    have h2 : (((orders.map (fun o => o.game_id)).dedup).insertionSort
        (fun a b => a ≤ b)).Nodup :=
      (List.perm_insertionSort _ _).nodup_iff.mpr (List.nodup_dedup _)
    exact (List.Pairwise.and h1 h2).imp (fun h => lt_of_le_of_ne h.1 h.2)
  refine ⟨?_, by decide⟩
  unfold sortedEntries
  apply pairwise_count_lex
  · exact sorted_insertionSort_total (fun x y : Nat × Nat => y.2 ≤ x.2)
      (fun a b => le_total _ _) (fun a b c h1 h2 => le_trans h2 h1) _
  · intro c
    rw [filter_insertionSort_stable (fun x y : Nat × Nat => y.2 ≤ x.2) (fun x => x.2 == c)
      (fun a b ha hb => by simp only [beq_iff_eq] at ha hb; omega) _]
    exact hasc.filter _

/-! ### API client (src/frontend/src/services/api.ts) -/

/-- The parsed JSON error body of a non-2xx response, reduced to the one
field the client reads: `detail` (`none` when the field is absent). -/
structure ErrorBody where
  detail : Option String
deriving DecidableEq, Repr

/-- The generic message built by the client from the HTTP status. -/
def fallbackMessage (status : Nat) : String :=
  "HTTP error! status: " ++ toString status

/-- JS `x || y` for a string-or-undefined `x`: `y` when `x` is absent or
the empty string (both falsy), `x` otherwise. -/
def jsOrElse (s : Option String) (fallback : String) : String :=
  match s with
  | some str => if str = "" then fallback else str
  | none => fallback

/-- The error message `request` throws on `!response.ok`:
`const error = await response.json().catch(() => ({ detail: 'Unknown error' }));`
`throw new Error(error.detail || `HTTP error! status: ${response.status}`);`.
`parsed` is the outcome of `response.json()` (`none` when the body fails
to parse as JSON). -/
def requestErrorMessage (parsed : Option ErrorBody) (status : Nat) : String :=
  let e := parsed.getD { detail := some "Unknown error" }
  jsOrElse e.detail (fallbackMessage status)

/-- Method `ApiService.request` outcome for a response: the parsed body typed to
`α` on a 2xx response, otherwise exactly one error carrying the normalized
message (the outer `catch` logs and rethrows the same error). -/
def request {α : Type} (ok : Bool) (parsed : Option ErrorBody) (status : Nat)
    (body : α) : Except String α :=
  if ok then Except.ok body else Except.error (requestErrorMessage parsed status)

/-- The message determination the claim describes: the `detail` string when
the body parses as JSON with a non-empty `detail`, otherwise the generic
"HTTP error: <status>". -/
def claimedErrorMessage (parsed : Option ErrorBody) (status : Nat) : String :=
  match parsed with
  | some b =>
      match b.detail with
      | some d => if d = "" then "HTTP error: " ++ toString status else d
      | none => "HTTP error: " ++ toString status
  | none => "HTTP error: " ++ toString status

/-- The message determination the code implements, stated independently of
the implementation for the amended claim: the non-empty `detail` when the
body parses and carries one; the generic "HTTP error! status: <status>"
when the body parses without a usable `detail`; and the fixed string
"Unknown error" when the body does not parse as JSON at all. -/
def amendedErrorMessage (parsed : Option ErrorBody) (status : Nat) : String :=
  match parsed with
  | none => "Unknown error"
  | some b =>
      match b.detail with
      | some d => if d = "" then "HTTP error! status: " ++ toString status else d
      | none => "HTTP error! status: " ++ toString status

/-- C5 counterexample: a 500 response whose body does not parse as JSON
yields the message "Unknown error", not the claimed generic
"HTTP error: 500" (nor the code's own generic "HTTP error! status: 500"). -/
theorem requestErrorMessage_counterexample :
    requestErrorMessage none 500 = "Unknown error"
    ∧ claimedErrorMessage none 500 = "HTTP error: 500"
    ∧ requestErrorMessage none 500 ≠ claimedErrorMessage none 500
    ∧ requestErrorMessage none 500 ≠ fallbackMessage 500 := by
  refine ⟨rfl, rfl, by decide, by decide⟩

/-- C5 amended: on every non-2xx response exactly one error is raised and
its message is: the body's `detail` when the body parses as JSON with a
non-empty `detail` (in particular "Game not found" for the 404 example);
the generic "HTTP error! status: <status>" when the body parses without a
non-empty `detail`; and "Unknown error" when the body does not parse. -/
theorem request_error_amended (parsed : Option ErrorBody) (status : Nat)
    (body : List Game) :
    request false parsed status body = Except.error (amendedErrorMessage parsed status)
    ∧ requestErrorMessage parsed status = amendedErrorMessage parsed status
    ∧ requestErrorMessage (some (ErrorBody.mk (some "Game not found"))) 404
        = "Game not found" := by
  have key : requestErrorMessage parsed status = amendedErrorMessage parsed status := by
    rcases parsed with _ | b
    · rfl
    · rcases b with ⟨_ | d⟩
      · rfl
      · rfl
  refine ⟨?_, key, rfl⟩
  simp only [request, key]
  rfl

/-- C5 witness: the amended error contract at a 404 with body
`{"detail": "Game not found"}` and an empty success payload. -/
theorem request_error_amended_witness :
    request false (some (ErrorBody.mk (some "Game not found"))) 404 ([] : List Game)
        = Except.error (amendedErrorMessage (some (ErrorBody.mk (some "Game not found"))) 404)
    ∧ requestErrorMessage (some (ErrorBody.mk (some "Game not found"))) 404
        = amendedErrorMessage (some (ErrorBody.mk (some "Game not found"))) 404
    ∧ requestErrorMessage (some (ErrorBody.mk (some "Game not found"))) 404
        = "Game not found" :=
  request_error_amended (some (ErrorBody.mk (some "Game not found"))) 404 []

/-- One HTTP request as issued by `fetch`: its URL and method (`fetch`
defaults to GET when the options carry no method). -/
structure RequestSpec where
  url : String
  method : String
deriving DecidableEq, Repr

/-- The requests issued by one call of `ApiService.request`:
`const url = `${API_BASE_URL}${endpoint}`;` followed by a single
`fetch(url, ...)`. -/
def requestCalls (baseUrl endpoint : String) (method : Option String) : List RequestSpec :=
  [{ url := baseUrl ++ endpoint, method := method.getD "GET" }]

/-- Method `ApiService.searchGames(keyword)`:
`this.request<Game[]>(`/games/search/${keyword}`)` with no options. -/
def searchGames (baseUrl keyword : String) : List RequestSpec :=
  requestCalls baseUrl ("/games/search/" ++ keyword) none

lemma string_append_assoc (a b c : String) : (a ++ b) ++ c = a ++ (b ++ c) := by
  rcases a with ⟨la⟩
  rcases b with ⟨lb⟩
  rcases c with ⟨lc⟩
  show String.mk ((la ++ lb) ++ lc) = String.mk (la ++ (lb ++ lc))
  rw [List.append_assoc]

/-- C10: `searchGames` issues exactly one GET request whose URL is the base
path, then "/games/search/", then the keyword verbatim — no escaping, so a
keyword containing '/', '?', '#' or spaces is interpolated unchanged, as on
the concrete instance. -/
theorem searchGames_request (baseUrl keyword : String) :
    searchGames baseUrl keyword
      = [RequestSpec.mk (baseUrl ++ "/games/search/" ++ keyword) "GET"]
    ∧ (searchGames baseUrl keyword).length = 1
    ∧ searchGames "/api" "a b/c?d#e"
      = [RequestSpec.mk "/api/games/search/a b/c?d#e" "GET"] := by
  refine ⟨?_, rfl, rfl⟩
  simp only [searchGames, requestCalls, Option.getD_none, string_append_assoc]

/-! ### Profile aggregation joins (src/unnamed/part_002) -/

/-- Loader `loadOrders`: every order is mapped to itself plus a display title,
`game?.title ?? `#${order.game_id}`` after `games.find(g => g.id === order.game_id)`. -/
def ordersWithGames (orders : List Order) (games : List Game) : List (Order × String) :=
  orders.map (fun o =>
    (o, match games.find? (fun g => g.id == o.game_id) with
        | some g => g.title
        | none => "#" ++ toString o.game_id))

/-- Loader `loadLibrary`: `library.map(lib => games.find(game => game.id === lib.game_id)).filter(game => game !== undefined)`. -/
def libraryGames (library : List LibraryEntry) (games : List Game) : List Game :=
  library.filterMap (fun lib => games.find? (fun g => g.id == lib.game_id))

/-- Loader `loadUserReviews`: `allReviews.filter(review => review.user_id === currentUser.id)`. -/
def userReviews (allReviews : List Review) (userId : Nat) : List Review :=
  allReviews.filter (fun rv => rv.user_id == userId)

/-- The review tab render: each review is shown with
`game?.title ?? `#${review.game_id}`` after `allGames.find(g => g.id === review.game_id)`. -/
def userReviewLabels (reviews : List Review) (games : List Game) : List (Review × String) :=
  reviews.map (fun rv =>
    (rv, match games.find? (fun g => g.id == rv.game_id) with
         | some g => g.title
         | none => "#" ++ toString rv.game_id))

/-- C6 counterexample: a library entry whose game_id 999 does not resolve
against the one-game catalog is dropped from the displayed library (the
join filters out unresolvable entries instead of keeping them with a
placeholder), so the claim fails for library entries. -/
theorem libraryGames_counterexample :
    libraryGames [LibraryEntry.mk 1 999] [Game.mk 1 "A" "" 0 0 0 1 1] = []
    ∧ ([LibraryEntry.mk 1 999] : List LibraryEntry).length = 1 := by
  refine ⟨rfl, rfl⟩

/-- C6 amended: orders and reviews with unresolvable game_id are kept and
displayed with the placeholder "#<game_id>" (every order yields exactly one
row, and the order referencing the absent game 999 is labelled exactly
"#999"), but library entries whose game_id does not resolve are dropped:
the displayed library equals the join of the resolvable entries only. -/
theorem profile_join_amended (orders : List Order) (library : List LibraryEntry)
    (reviews : List Review) (games : List Game) :
    (ordersWithGames orders games).length = orders.length
    ∧ (∀ o ∈ orders, games.find? (fun g => g.id == o.game_id) = none →
        (o, "#" ++ toString o.game_id) ∈ ordersWithGames orders games)
    ∧ (∀ rv ∈ reviews, games.find? (fun g => g.id == rv.game_id) = none →
        (rv, "#" ++ toString rv.game_id) ∈ userReviewLabels reviews games)
    ∧ ordersWithGames [Order.mk 1 1 999 100] [Game.mk 1 "A" "" 0 0 0 1 1]
        = [(Order.mk 1 1 999 100, "#999")]
    ∧ libraryGames library games
        = libraryGames (library.filter
            (fun e => (games.find? (fun g => g.id == e.game_id)).isSome)) games := by
  refine ⟨List.length_map _ _, ?_, ?_, by decide, ?_⟩
  · intro o ho hnone
    apply List.mem_map.mpr
    exact ⟨o, ho, by rw [hnone]⟩
  · intro rv hrv hnone
    apply List.mem_map.mpr
    exact ⟨rv, hrv, by rw [hnone]⟩
  · simp only [libraryGames]
    induction library with
    | nil => rfl
    | cons e t ih =>
        cases hfind : games.find? (fun g => g.id == e.game_id) with
        | none => simpa [List.filterMap_cons, List.filter_cons, hfind] using ih
        | some g => simpa [List.filterMap_cons, List.filter_cons, hfind] using ih

/-- C6 witness: the placeholder row for an order referencing the absent
game 999 is present in the join output. -/
theorem profile_join_amended_witness :
    (Order.mk 1 1 999 100, "#" ++ toString (999 : Nat)) ∈
      ordersWithGames [Order.mk 1 1 999 100] [Game.mk 1 "A" "" 0 0 0 1 1] :=
  (profile_join_amended [Order.mk 1 1 999 100] [] [] [Game.mk 1 "A" "" 0 0 0 1 1]).2.1
    (Order.mk 1 1 999 100) (List.mem_singleton_self _) (by decide)

/-! ### Freshness of the pipeline result (C9)

JS arrays are heap objects and `Array.prototype.sort` mutates its receiver
in place, so `getFilteredGames` is re-embedded against an explicit store of
arrays: `[...allGames]` allocates a copy, each `.filter` allocates a new
array, and the final `.sort` writes in place — but only to the freshly
allocated array, never to the input. -/

/-- The array heap: one cell per allocated JS array of games. -/
structure Store where
  arrays : List (List Game)

/-- Dereference an array. -/
def Store.read (s : Store) (r : Nat) : List Game := (s.arrays[r]?).getD []

/-- Allocate a fresh array holding `v`; returns the new store and the new
reference. -/
def Store.alloc (s : Store) (v : List Game) : Store × Nat :=
  ({ arrays := s.arrays ++ [v] }, s.arrays.length)

/-- Overwrite the array at `r` in place (the effect of `.sort`). -/
def Store.write (s : Store) (r : Nat) (v : List Game) : Store :=
  { arrays := s.arrays.set r v }

/-- Function `getFilteredGames` against the store: `let filtered = [...allGames]`
allocates a copy; each conditional `.filter` rebinds `filtered` to a newly
allocated array; the sort switch mutates the current `filtered` array in
place; the reference to that array is returned. -/
def runGetFilteredGames (s : Store) (rAll : Nat) (fs : FilterState) : Store × Nat :=
  let p1 := s.alloc (s.read rAll)
  let p2 := match fs.selectedGenre with
    | some g => p1.1.alloc ((p1.1.read p1.2).filter (fun game => game.genre_id == g))
    | none => p1
  let p3 := match fs.selectedPlatform with
    | some pf => p2.1.alloc ((p2.1.read p2.2).filter (fun game => game.platform_id == pf))
    | none => p2
  let p4 := p3.1.alloc ((p3.1.read p3.2).filter
    (fun game => decide (fs.minPrice ≤ game.price) && decide (game.price ≤ fs.maxPrice)))
  (p4.1.write p4.2 (sortGames fs.sortBy (p4.1.read p4.2)), p4.2)

lemma Store.read_alloc_lt {s : Store} {v : List Game} {r : Nat}
    (h : r < s.arrays.length) : (s.alloc v).1.read r = s.read r := by
  simp only [Store.alloc, Store.read]
  rw [List.getElem?_append_left h]

lemma Store.read_alloc_self (s : Store) (v : List Game) :
    (s.alloc v).1.read (s.alloc v).2 = v := by
  simp only [Store.alloc, Store.read]
  rw [List.getElem?_append_right (le_refl _)]
  simp

lemma Store.read_write_ne {s : Store} {r r' : Nat} {v : List Game} (h : r' ≠ r) :
    (s.write r' v).read r = s.read r := by
  simp only [Store.write, Store.read]
  rw [List.getElem?_set_ne h]

lemma Store.read_write_self {s : Store} {r : Nat} {v : List Game}
    (h : r < s.arrays.length) : (s.write r v).read r = v := by
  simp only [Store.write, Store.read]
  rw [List.getElem?_set_self h]
  rfl

lemma runGetFilteredGames_spec (s : Store) (rAll : Nat) (fs : FilterState)
    (h : rAll < s.arrays.length) :
    (runGetFilteredGames s rAll fs).1.read rAll = s.read rAll
    ∧ (runGetFilteredGames s rAll fs).1.read (runGetFilteredGames s rAll fs).2
        = getFilteredGames (s.read rAll) fs
    ∧ rAll < (runGetFilteredGames s rAll fs).1.arrays.length := by
  rcases hg : fs.selectedGenre with _ | g <;> rcases hp : fs.selectedPlatform with _ | pf <;>
    simp only [runGetFilteredGames, hg, hp] <;> refine ⟨?_, ?_, ?_⟩
  · rw [Store.read_write_ne (by simp only [Store.alloc, List.length_append, List.length_cons, List.length_nil]; omega),
      Store.read_alloc_lt (by simp only [Store.alloc, List.length_append, List.length_cons, List.length_nil]; omega), Store.read_alloc_lt h]
  · rw [Store.read_write_self (by simp only [Store.alloc, List.length_append, List.length_cons, List.length_nil]; omega), Store.read_alloc_self,
      Store.read_alloc_self]
    unfold getFilteredGames filteredGames priceStep platformStep genreStep
    rw [hg, hp]
  · simp only [Store.write, Store.alloc, List.length_set, List.length_append, List.length_cons,
      List.length_nil]
    omega
  · rw [Store.read_write_ne (by simp only [Store.alloc, List.length_append, List.length_cons, List.length_nil]; omega),
      Store.read_alloc_lt (by simp only [Store.alloc, List.length_append, List.length_cons, List.length_nil]; omega),
      Store.read_alloc_lt (by simp only [Store.alloc, List.length_append, List.length_cons, List.length_nil]; omega), Store.read_alloc_lt h]
  · rw [Store.read_write_self (by simp only [Store.alloc, List.length_append, List.length_cons, List.length_nil]; omega), Store.read_alloc_self,
      Store.read_alloc_self, Store.read_alloc_self]
    unfold getFilteredGames filteredGames priceStep platformStep genreStep
    rw [hg, hp]
  · simp only [Store.write, Store.alloc, List.length_set, List.length_append, List.length_cons,
      List.length_nil]
    omega
  · rw [Store.read_write_ne (by simp only [Store.alloc, List.length_append, List.length_cons, List.length_nil]; omega),
      Store.read_alloc_lt (by simp only [Store.alloc, List.length_append, List.length_cons, List.length_nil]; omega),
      Store.read_alloc_lt (by simp only [Store.alloc, List.length_append, List.length_cons, List.length_nil]; omega), Store.read_alloc_lt h]
  · rw [Store.read_write_self (by simp only [Store.alloc, List.length_append, List.length_cons, List.length_nil]; omega), Store.read_alloc_self,
      Store.read_alloc_self, Store.read_alloc_self]
    unfold getFilteredGames filteredGames priceStep platformStep genreStep
    rw [hg, hp]
  · simp only [Store.write, Store.alloc, List.length_set, List.length_append, List.length_cons,
      List.length_nil]
    omega
  · rw [Store.read_write_ne (by simp only [Store.alloc, List.length_append, List.length_cons, List.length_nil]; omega),
      Store.read_alloc_lt (by simp only [Store.alloc, List.length_append, List.length_cons, List.length_nil]; omega),
      Store.read_alloc_lt (by simp only [Store.alloc, List.length_append, List.length_cons, List.length_nil]; omega),
      Store.read_alloc_lt (by simp only [Store.alloc, List.length_append, List.length_cons, List.length_nil]; omega), Store.read_alloc_lt h]
  · rw [Store.read_write_self (by simp only [Store.alloc, List.length_append, List.length_cons, List.length_nil]; omega), Store.read_alloc_self,
      Store.read_alloc_self, Store.read_alloc_self, Store.read_alloc_self]
    unfold getFilteredGames filteredGames priceStep platformStep genreStep
    rw [hg, hp]
  · simp only [Store.write, Store.alloc, List.length_set, List.length_append, List.length_cons,
      List.length_nil]
    omega

/-- C9: the pipeline never mutates the input array (reading the input
reference back after a run returns exactly the original list, and the
elements are values, untouched by construction); the returned reference is
fresh and holds exactly the pure pipeline result; and running the pipeline
twice with the same inputs yields structurally identical outputs. -/
theorem pipeline_no_mutation (s : Store) (rAll : Nat) (fs : FilterState)
    (h : rAll < s.arrays.length) :
    (runGetFilteredGames s rAll fs).1.read rAll = s.read rAll
    ∧ (runGetFilteredGames s rAll fs).1.read (runGetFilteredGames s rAll fs).2
        = getFilteredGames (s.read rAll) fs
    ∧ (runGetFilteredGames (runGetFilteredGames s rAll fs).1 rAll fs).1.read
          (runGetFilteredGames (runGetFilteredGames s rAll fs).1 rAll fs).2
        = (runGetFilteredGames s rAll fs).1.read (runGetFilteredGames s rAll fs).2 := by
  obtain ⟨ha, hb, hc⟩ := runGetFilteredGames_spec s rAll fs h
  refine ⟨ha, hb, ?_⟩
  obtain ⟨ha2, hb2, hc2⟩ := runGetFilteredGames_spec (runGetFilteredGames s rAll fs).1 rAll fs hc
  rw [hb2, ha, hb]

/-- C9 witness: the no-mutation contract at a one-array store holding a
one-game catalog, with a rating sort. -/
theorem pipeline_no_mutation_witness :
    (runGetFilteredGames (Store.mk [[Game.mk 1 "A" "" 50 3 100 2 3]]) 0
        (FilterState.mk none none 0 10000 "rating")).1.read 0
      = (Store.mk [[Game.mk 1 "A" "" 50 3 100 2 3]]).read 0
    ∧ (runGetFilteredGames (Store.mk [[Game.mk 1 "A" "" 50 3 100 2 3]]) 0
          (FilterState.mk none none 0 10000 "rating")).1.read
        (runGetFilteredGames (Store.mk [[Game.mk 1 "A" "" 50 3 100 2 3]]) 0
          (FilterState.mk none none 0 10000 "rating")).2
      = getFilteredGames ((Store.mk [[Game.mk 1 "A" "" 50 3 100 2 3]]).read 0)
          (FilterState.mk none none 0 10000 "rating")
    ∧ (runGetFilteredGames (runGetFilteredGames (Store.mk [[Game.mk 1 "A" "" 50 3 100 2 3]]) 0
            (FilterState.mk none none 0 10000 "rating")).1 0
          (FilterState.mk none none 0 10000 "rating")).1.read
        (runGetFilteredGames (runGetFilteredGames (Store.mk [[Game.mk 1 "A" "" 50 3 100 2 3]]) 0
            (FilterState.mk none none 0 10000 "rating")).1 0
          (FilterState.mk none none 0 10000 "rating")).2
      = (runGetFilteredGames (Store.mk [[Game.mk 1 "A" "" 50 3 100 2 3]]) 0
          (FilterState.mk none none 0 10000 "rating")).1.read
        (runGetFilteredGames (Store.mk [[Game.mk 1 "A" "" 50 3 100 2 3]]) 0
          (FilterState.mk none none 0 10000 "rating")).2 :=
  pipeline_no_mutation (Store.mk [[Game.mk 1 "A" "" 50 3 100 2 3]]) 0
    (FilterState.mk none none 0 10000 "rating") (by decide)

end GameStore
